import Mathlib

/-!
Verification of the STM32 USART bootloader driver (`Stm32UartBootloader.ts`)
against its natural-language specification.

Bytes are modelled as `Nat` values; a JavaScript `Buffer` becomes a
`List Nat` whose entries are `< 256` where that matters.  Byte stores into a
`Buffer` truncate modulo 256, mirrored explicitly below.  Callback- and
promise-based control flow is modelled by explicit state passing and by
folds over the sequence of inbound UART chunks.
-/

namespace Stm32

/-- Bootloader protocol constants, from the top of `Stm32UartBootloader.ts`. -/
def ACK : Nat := 0x79

def NACK : Nat := 0x1f

def WRITE_PACKET_SIZE : Nat := 256

def CMD_GET : Nat := 0x00

def CMD_ID : Nat := 0x02

def CMD_WRITE_MEMORY : Nat := 0x31

def CMD_ERASE : Nat := 0x43

/-- Byte value stored for the JavaScript expression `~op` (32-bit bitwise NOT,
then truncation to one byte by the `Buffer` store). `~op` is `-(op+1)` on
32-bit two's complement, whose low byte is `(2^32 - 1 - op % 2^32) % 256`. -/
def jsNotByte (op : Nat) : Nat := (2 ^ 32 - 1 - op % 2 ^ 32) % 256

/-- Outbound command frame `new Buffer([cmd, ~cmd])` from
`_cmdWithAckBeginAndEnd`, `_cmdWrite` and `_cmdEraseAll`. -/
def cmdFrame (op : Nat) : List Nat := [op % 256, jsNotByte op]

/-- XOR checksum of a buffer, from `_calculateChecksumOfBuffer`:
`checksum` starts at 0 and each byte is XOR-ed in. -/
def calculateChecksumOfBuffer (buffer : List Nat) : Nat :=
  buffer.foldl (fun c b => Nat.xor c b) 0

/-- Big-endian address byte `(address >> sh) & 0xff` from `_cmdWrite`. -/
def addrByte (address sh : Nat) : Nat := address / 2 ^ sh % 256

/-- Address frame `[addr0, addr1, addr2, addr3, addrChecksum]` built in
`_cmdWrite` (states `SEND_ADDRESS → SEND_DATA`). -/
def addressFrame (address : Nat) : List Nat :=
  let a0 := addrByte address 24
  let a1 := addrByte address 16
  let a2 := addrByte address 8
  let a3 := addrByte address 0
  [a0, a1, a2, a3, Nat.xor (Nat.xor (Nat.xor a0 a1) a2) a3]

/-- Data frame built in `_cmdWrite` (state `SEND_DATA`):
`buffer[0] = data.length - 1` (byte store of the JavaScript value
`data.length - 1`, i.e. `(data.length + 255) % 256`), then the data bytes,
then `buffer[0] ^ checksum(data)` truncated to one byte by the store. -/
def dataFrame (data : List Nat) : List Nat :=
  let n := (data.length + 255) % 256
  n :: data ++ [Nat.xor n (calculateChecksumOfBuffer data) % 256]

/-- XOR of two bytes is a byte. -/
lemma xor_lt_256 {a b : Nat} (ha : a < 256) (hb : b < 256) : Nat.xor a b < 256 := by
  have h : Nat.xor a b < 2 ^ 8 := Nat.xor_lt_two_pow (n := 8) ha hb
  simpa using h

lemma foldl_xor_lt_256 (l : List Nat) (h : ∀ b ∈ l, b < 256) :
    ∀ acc, acc < 256 → l.foldl (fun c b => Nat.xor c b) acc < 256 := by
  induction l with
  | nil => intro acc hacc; simpa using hacc
  | cons b t ih =>
    intro acc hacc
    have hb : b < 256 := h b (by simp)
    have ht : ∀ x ∈ t, x < 256 := fun x hx => h x (by simp [hx])
    simpa using ih ht (Nat.xor acc b) (xor_lt_256 hacc hb)

lemma calculateChecksumOfBuffer_lt_256 (l : List Nat) (h : ∀ b ∈ l, b < 256) :
    calculateChecksumOfBuffer l < 256 :=
  foldl_xor_lt_256 l h 0 (by decide)

/-- C7: every outbound command frame issued by the command layer
(`Get` 0x00, `Get ID` 0x02, `Erase` 0x43, `Write Memory` 0x31) is exactly the
two bytes `[op, op XOR 0xFF]`; equivalently the second byte is the bitwise
complement `~op` reduced modulo 256. -/
theorem command_frame_is_op_and_complement :
    (cmdFrame CMD_GET = [CMD_GET, Nat.xor CMD_GET 0xFF]
      ∧ cmdFrame CMD_ID = [CMD_ID, Nat.xor CMD_ID 0xFF]
      ∧ cmdFrame CMD_ERASE = [CMD_ERASE, Nat.xor CMD_ERASE 0xFF]
      ∧ cmdFrame CMD_WRITE_MEMORY = [CMD_WRITE_MEMORY, Nat.xor CMD_WRITE_MEMORY 0xFF])
    ∧ (jsNotByte CMD_GET = Nat.xor CMD_GET 0xFF
      ∧ jsNotByte CMD_ID = Nat.xor CMD_ID 0xFF
      ∧ jsNotByte CMD_ERASE = Nat.xor CMD_ERASE 0xFF
      ∧ jsNotByte CMD_WRITE_MEMORY = Nat.xor CMD_WRITE_MEMORY 0xFF) := by
  decide

/-- C6: in every Write Memory exchange for a 32-bit address and a 256-byte
packet, the address frame is the four address bytes most-significant first
followed by the XOR of those four bytes, and the data frame is
`[N, d0..dN, c]` with `N = length - 1` and `c = N XOR (XOR of all data bytes)`. -/
theorem write_memory_frames_spec (address : Nat) (data : List Nat)
    (haddr : address < 2 ^ 32) (hlen : data.length = 256)
    (hbytes : ∀ b ∈ data, b < 256) :
    addressFrame address =
      [address / 2 ^ 24, address / 2 ^ 16 % 256, address / 2 ^ 8 % 256, address % 256,
        Nat.xor (Nat.xor (Nat.xor (address / 2 ^ 24) (address / 2 ^ 16 % 256))
          (address / 2 ^ 8 % 256)) (address % 256)]
    ∧ dataFrame data =
      (data.length - 1) :: data ++
        [Nat.xor (data.length - 1) (data.foldl Nat.xor 0)] := by
  constructor
  · have h24 : address / 2 ^ 24 % 256 = address / 2 ^ 24 := by omega
    simp only [addressFrame, addrByte, pow_zero, Nat.div_one, h24]
  · have hck : calculateChecksumOfBuffer data < 256 :=
      calculateChecksumOfBuffer_lt_256 data hbytes
    have hn : (data.length + 255) % 256 = data.length - 1 := by omega
    have hx : Nat.xor (data.length - 1) (calculateChecksumOfBuffer data) < 256 :=
      xor_lt_256 (by omega) hck
    simp only [dataFrame, hn, Nat.mod_eq_of_lt hx]
    rfl

set_option maxRecDepth 4096 in
/-- Witness for `write_memory_frames_spec` at address 0x08000000 and a
256-byte packet of 0xAA bytes. -/
theorem write_memory_frames_spec_witness :
    addressFrame 0x08000000 =
      [0x08000000 / 2 ^ 24, 0x08000000 / 2 ^ 16 % 256, 0x08000000 / 2 ^ 8 % 256,
        0x08000000 % 256,
        Nat.xor (Nat.xor (Nat.xor (0x08000000 / 2 ^ 24) (0x08000000 / 2 ^ 16 % 256))
          (0x08000000 / 2 ^ 8 % 256)) (0x08000000 % 256)]
    ∧ dataFrame (List.replicate 256 0xAA) =
      ((List.replicate 256 0xAA).length - 1) :: List.replicate 256 0xAA ++
        [Nat.xor ((List.replicate 256 0xAA).length - 1)
          ((List.replicate 256 0xAA).foldl Nat.xor 0)] :=
  write_memory_frames_spec 0x08000000 (List.replicate 256 0xAA)
    (by decide) (by decide) (by decide)

/-- Padded length computed in `_writeAll`: `data.length + (4 - (data.length % 4))`. -/
def paddedLength (dataLen : Nat) : Nat := dataLen + (4 - dataLen % 4)

/-- One packet built per iteration of `_writeAll`:
`Buffer.alloc(WRITE_PACKET_SIZE, 0xff)` followed by `data.copy(packet, 0, offset)`,
which copies `min(WRITE_PACKET_SIZE, data.length - offset)` bytes of
`data[offset..]` to the front of the packet; the remaining bytes stay 0xFF. -/
def mkPacket (data : List Nat) (offset : Nat) : List Nat :=
  let src := (data.drop offset).take WRITE_PACKET_SIZE
  src ++ List.replicate (WRITE_PACKET_SIZE - src.length) 0xff

/-- While-loop of `_writeAll`: while `offset < length`, emit one packet at
`address`, then advance `address += packet.length; offset += packet.length`. -/
def writeAllLoop (data : List Nat) (length address offset : Nat) :
    List (Nat × List Nat) :=
  if offset < length then
    (address, mkPacket data offset) ::
      writeAllLoop data length (address + WRITE_PACKET_SIZE) (offset + WRITE_PACKET_SIZE)
  else []
termination_by length - offset
decreasing_by simp only [WRITE_PACKET_SIZE]; omega

/-- Packet sequence produced by a successful `_writeAll(startAddress, data)` run. -/
def writeAll (startAddress : Nat) (data : List Nat) : List (Nat × List Nat) :=
  writeAllLoop data (paddedLength data.length) startAddress 0

/-- Specification-side helper: `xs` truncated or 0xFF-padded to `m` bytes. -/
def padFF (m : Nat) (xs : List Nat) : List Nat :=
  xs.take m ++ List.replicate (m - xs.length) 0xff

lemma mkPacket_length (data : List Nat) (offset : Nat) :
    (mkPacket data offset).length = 256 := by
  simp [mkPacket, WRITE_PACKET_SIZE]

lemma mkPacket_eq_padFF (data : List Nat) (offset : Nat) :
    mkPacket data offset = padFF WRITE_PACKET_SIZE (data.drop offset) := by
  simp only [mkPacket, padFF, List.length_take, List.length_drop, WRITE_PACKET_SIZE]
  congr 2
  omega

lemma padFF_append (m n : Nat) (xs : List Nat) :
    padFF m xs ++ padFF n (xs.drop m) = padFF (m + n) xs := by
  unfold padFF
  rcases le_or_lt xs.length m with h | h
  · rw [List.take_of_length_le h, List.take_of_length_le (le_trans h (Nat.le_add_right m n)),
      List.drop_eq_nil_of_le h]
    simp only [List.take_nil, List.length_nil, Nat.sub_zero, List.nil_append,
      List.append_assoc]
    rw [← List.replicate_add]
    congr 2
    omega
  · rw [List.take_add, List.length_drop]
    have h1 : m - xs.length = 0 := by omega
    have h2 : m + n - xs.length = n - (xs.length - m) := by omega
    simp only [h1, h2, List.replicate_zero, List.append_nil, List.append_assoc]

lemma writeAllLoop_closed (data : List Nat) :
    ∀ n length address offset, length - offset = n →
      writeAllLoop data length address offset =
        (List.range ((length - offset + 255) / 256)).map
          (fun i => (address + 256 * i, mkPacket data (offset + 256 * i))) := by
  intro n
  induction n using Nat.strong_induction_on with
  | _ n ih =>
    intro length address offset h
    rw [writeAllLoop]
    by_cases hlt : offset < length
    · rw [if_pos hlt]
      have hn : length - (offset + WRITE_PACKET_SIZE) < n := by
        simp only [WRITE_PACKET_SIZE]; omega
      rw [ih _ hn length (address + WRITE_PACKET_SIZE) (offset + WRITE_PACKET_SIZE) rfl]
      have hk : (length - offset + 255) / 256 =
          (length - (offset + WRITE_PACKET_SIZE) + 255) / 256 + 1 := by
        simp only [WRITE_PACKET_SIZE]; omega
      have hfun : ((fun i => (address + 256 * i, mkPacket data (offset + 256 * i))) ∘ Nat.succ)
          = (fun i => (address + WRITE_PACKET_SIZE + 256 * i,
              mkPacket data (offset + WRITE_PACKET_SIZE + 256 * i))) := by
        funext i
        simp only [Function.comp_apply, WRITE_PACKET_SIZE, Prod.mk.injEq]
        refine ⟨by omega, ?_⟩
        congr 1
        omega
      rw [hk, List.range_succ_eq_map, List.map_cons, List.map_map, hfun]
      simp only [Nat.mul_zero, Nat.add_zero]
    · rw [if_neg hlt]
      have : (length - offset + 255) / 256 = 0 := by omega
      simp [this]

lemma join_range_mkPacket (data : List Nat) :
    ∀ k offset, ((List.range k).map (fun i => mkPacket data (offset + 256 * i))).flatten
      = padFF (256 * k) (data.drop offset) := by
  intro k
  induction k with
  | zero => intro offset; simp [padFF]
  | succ k ih =>
    intro offset
    rw [List.range_succ_eq_map, List.map_cons, List.map_map, List.flatten_cons]
    have hmap : (fun i => mkPacket data (offset + 256 * Nat.succ i)) =
        (fun i => mkPacket data ((offset + 256) + 256 * i)) := by
      funext i; congr 1; omega
    have hcomp : ((fun i => mkPacket data (offset + 256 * i)) ∘ Nat.succ) =
        (fun i => mkPacket data ((offset + 256) + 256 * i)) := by
      funext i; simp only [Function.comp_apply]; congr 1; omega
    rw [hcomp, ih (offset + 256)]
    have hdrop : data.drop (offset + 256) = (data.drop offset).drop 256 := by
      rw [List.drop_drop]
    rw [Nat.mul_zero, Nat.add_zero, hdrop, mkPacket_eq_padFF]
    have : (256 : Nat) * Nat.succ k = 256 + 256 * k := by omega
    rw [this, ← padFF_append]
    rfl

/-- C3: a successful flash writes exactly `ceil((data.length + 1)/256) * 256`
payload bytes through Write Memory, as 256-byte packets at addresses
`start, start+256, start+512, ...`, and the concatenated payload equals
`data` in its first `data.length` bytes and is 0xFF in every byte after. -/
theorem write_all_padding_spec (startAddress : Nat) (data : List Nat) :
    (writeAll startAddress data).length = (data.length + 1 + 255) / 256
    ∧ (∀ p ∈ writeAll startAddress data, p.2.length = 256)
    ∧ (writeAll startAddress data).map Prod.fst =
        (List.range ((data.length + 1 + 255) / 256)).map (fun i => startAddress + 256 * i)
    ∧ ((writeAll startAddress data).map Prod.snd).flatten =
        data ++ List.replicate ((data.length + 1 + 255) / 256 * 256 - data.length) 0xff := by
  have hclosed := writeAllLoop_closed data (paddedLength data.length - 0)
    (paddedLength data.length) startAddress 0 rfl
  have hk : (paddedLength data.length - 0 + 255) / 256 = (data.length + 1 + 255) / 256 := by
    simp only [paddedLength]; omega
  rw [hk] at hclosed
  unfold writeAll
  rw [hclosed]
  refine ⟨by simp, ?_, ?_, ?_⟩
  · intro p hp
    simp only [List.mem_map, List.mem_range] at hp
    obtain ⟨i, _, hi⟩ := hp
    rw [← hi]
    exact mkPacket_length data _
  · rw [List.map_map]
    rfl
  · rw [List.map_map]
    have : (Prod.snd ∘ fun i => (startAddress + 256 * i, mkPacket data (0 + 256 * i))) =
        (fun i => mkPacket data (0 + 256 * i)) := rfl
    rw [this, join_range_mkPacket data _ 0, List.drop_zero]
    have hlt : data.length < 256 * ((data.length + 1 + 255) / 256) := by omega
    unfold padFF
    rw [List.take_of_length_le (by omega)]
    congr 1
    congr 1
    omega

/-- Test whether `needle` occurs at the very front of `hay`, character by
character. -/
def listLeads : List Char → List Char → Bool
  | [], _ => true
  | _ :: _, [] => false
  | a :: na, b :: nb => a = b && listLeads na nb

/-- Scan of JavaScript `String.prototype.indexOf`: first position of `hay`
(counting from `i`) where `needle` occurs, if any. -/
def strIndexOfAux (needle : List Char) : List Char → Nat → Option Nat
  | [], i => if listLeads needle [] then some i else none
  | c :: rest, i =>
    if listLeads needle (c :: rest) then some i else strIndexOfAux needle rest (i + 1)

/-- JavaScript `hay.indexOf(needle)`: the first occurrence index, or -1. -/
def jsStringIndexOf (hay needle : List Char) : Int :=
  match strIndexOfAux needle hay 0 with
  | some i => Int.ofNat i
  | none => -1

/-- Substring tested by `_closeSerialPort` against the close error message. -/
def portNotOpenNeedle : List Char := "Port is not open".toList

/-- Model of `_closeSerialPort`: if the port was never opened
(`!this.serialPort`) it returns immediately; otherwise the close error is
nulled when its message contains `"Port is not open"` (`indexOf >= 0`), and
any remaining error is rejected. -/
def closeSerialPort (portOpen : Bool) (closeErr : Option (List Char)) :
    Except (List Char) Unit :=
  if portOpen = false then Except.ok ()
  else
    match closeErr with
    | none => Except.ok ()
    | some msg =>
      if 0 ≤ jsStringIndexOf msg portNotOpenNeedle then Except.ok () else Except.error msg

lemma strIndexOfAux_isSome (needle : List Char) :
    ∀ hay i, (∃ j, listLeads needle (hay.drop j) = true) →
      (strIndexOfAux needle hay i).isSome := by
  intro hay
  induction hay with
  | nil =>
    intro i h
    obtain ⟨j, hj⟩ := h
    simp only [List.drop_nil] at hj
    simp [strIndexOfAux, hj]
  | cons c rest ih =>
    intro i h
    by_cases hl : listLeads needle (c :: rest) = true
    · simp [strIndexOfAux, hl]
    · obtain ⟨j, hj⟩ := h
      cases j with
      | zero => simp only [List.drop_zero] at hj; exact absurd hj hl
      | succ j' =>
        simp only [List.drop_succ_cons] at hj
        simp only [strIndexOfAux, hl, if_neg, Bool.false_eq_true, if_false]
        exact ih (i + 1) ⟨j', hj⟩

/-- C8: a UART close whose error message contains "Port is not open" is
treated as success, and closing a never-opened port is a clean no-op. -/
theorem close_serial_port_spec (msg : List Char)
    (h : ∃ j, listLeads portNotOpenNeedle (msg.drop j) = true) :
    closeSerialPort true (some msg) = Except.ok ()
    ∧ ∀ e, closeSerialPort false e = Except.ok () := by
  constructor
  · have hsome : (strIndexOfAux portNotOpenNeedle msg 0).isSome :=
      strIndexOfAux_isSome portNotOpenNeedle msg 0 h
    unfold closeSerialPort jsStringIndexOf
    cases hx : strIndexOfAux portNotOpenNeedle msg 0 with
    | none => rw [hx] at hsome; simp at hsome
    | some i => simp [hx]
  · intro e
    rfl

/-- Witness for `close_serial_port_spec` on the message
"Error: Port is not open" (occurrence at index 7). -/
theorem close_serial_port_spec_witness :
    closeSerialPort true (some "Error: Port is not open".toList) = Except.ok ()
    ∧ closeSerialPort false (some "boom".toList) = Except.ok () :=
  ⟨(close_serial_port_spec "Error: Port is not open".toList ⟨7, by decide⟩).1,
    (close_serial_port_spec "Error: Port is not open".toList ⟨7, by decide⟩).2
      (some "boom".toList)⟩

/-- Steps of a flash session, as observed at the GPIO/UART collaborators. -/
inductive Action
  | openSerial
  | assertReset
  | deassertReset
  | setBoot0SystemMemory
  | setBoot0MainFlash
  | sleep (ms : Nat)
  | enterBootloader
  | getCmd
  | getIdCmd
  | runInner
  | closeSerial
deriving DecidableEq

/-- Outcome injected for each fallible step of a `_runSystemMemoryFn` run
(`none` = the step succeeds). GPIO writes are synchronous and infallible.
`closeErr` is the raw error handed by the serial driver to `close()`. -/
structure SessionEnv where
  openErr : Option (List Char)
  enterErr : Option (List Char)
  getErr : Option (List Char)
  getIdErr : Option (List Char)
  innerErr : Option (List Char)
  closeErr : Option (List Char)

/-- Sequential `await` execution: run steps in order, stopping at (and
propagating) the first failure. -/
def runSteps : List (Action × Option (List Char)) → List Action × Option (List Char)
  | [] => ([], none)
  | (a, none) :: rest =>
    let r := runSteps rest
    (a :: r.1, r.2)
  | (a, some e) :: _ => ([a], some e)

/-- Body of the `try` block of `_runSystemMemoryFn`, in source order: open
UART, assert RESET, BOOT0 = system memory, sleep 10, deassert RESET,
sleep 500, enter bootloader, Get, Get ID, the inner action, then
(still inside `try`) assert RESET and BOOT0 = main flash. -/
def tryBlockSteps (env : SessionEnv) : List (Action × Option (List Char)) :=
  [(.openSerial, env.openErr), (.assertReset, none), (.setBoot0SystemMemory, none),
    (.sleep 10, none), (.deassertReset, none), (.sleep 500, none),
    (.enterBootloader, env.enterErr), (.getCmd, env.getErr), (.getIdCmd, env.getIdErr),
    (.runInner, env.innerErr), (.assertReset, none), (.setBoot0MainFlash, none)]

/-- The `finally` block of `_runSystemMemoryFn`: close the UART, then
deassert RESET. If the close rejects, the second `await` is not reached and
the finally block itself throws. -/
def finallyBlock (env : SessionEnv) : List Action × Option (List Char) :=
  match closeSerialPort true env.closeErr with
  | Except.error e => ([Action.closeSerial], some e)
  | Except.ok _ => ([Action.closeSerial, Action.deassertReset], none)

/-- Model of `_runSystemMemoryFn`: JavaScript `try/finally` semantics — the
finally block always runs, and an exception thrown by the finally block
replaces the exception (if any) of the try block. -/
def runSystemMemoryFn (env : SessionEnv) : List Action × Option (List Char) :=
  let inner := runSteps (tryBlockSteps env)
  let fin := finallyBlock env
  (inner.1 ++ fin.1, match fin.2 with | some e => some e | none => inner.2)

/-- Session environment where every step succeeds. -/
def envAllOk : SessionEnv :=
  { openErr := none, enterErr := none, getErr := none, getIdErr := none,
    innerErr := none, closeErr := none }

/-- Session environment where Enter Bootloader times out. -/
def envEnterTimeout : SessionEnv :=
  { envAllOk with enterErr := some "Timeout waiting for response".toList }

/-- C1 (divergence): on a fully successful run the four teardown steps do
occur in the claimed order, but when Enter Bootloader fails only the
`finally` block (close UART, deassert RESET) runs — assert RESET and
BOOT0 = main flash sit inside the `try` block and are skipped, so the claimed
all-paths teardown sequence does not happen. -/
theorem teardown_skipped_on_failure :
    runSystemMemoryFn envAllOk =
      ([Action.openSerial, Action.assertReset, Action.setBoot0SystemMemory,
        Action.sleep 10, Action.deassertReset, Action.sleep 500,
        Action.enterBootloader, Action.getCmd, Action.getIdCmd, Action.runInner,
        Action.assertReset, Action.setBoot0MainFlash, Action.closeSerial,
        Action.deassertReset], none)
    ∧ runSystemMemoryFn envEnterTimeout =
      ([Action.openSerial, Action.assertReset, Action.setBoot0SystemMemory,
        Action.sleep 10, Action.deassertReset, Action.sleep 500,
        Action.enterBootloader, Action.closeSerial, Action.deassertReset],
        some "Timeout waiting for response".toList)
    ∧ Action.setBoot0MainFlash ∉ (runSystemMemoryFn envEnterTimeout).1 := by
  refine ⟨?_, ?_, ?_⟩ <;> decide

/-- Session environment where both the inner action and the UART close fail. -/
def envInnerAndCloseFail : SessionEnv :=
  { envAllOk with
    innerErr := some "inner failed".toList,
    closeErr := some "close failed".toList }

/-- C2 (counterexample): with the inner phase failing with "inner failed" and
the teardown close failing with "close failed", `flash` reports the teardown
error, not the inner error — contradicting the claim. -/
theorem inner_error_not_surfaced_when_teardown_fails :
    (runSystemMemoryFn envInnerAndCloseFail).2 = some "close failed".toList
    ∧ some "close failed".toList ≠ some "inner failed".toList := by
  refine ⟨?_, ?_⟩ <;> decide

/-- C2 (amended): a teardown error always preempts the inner outcome; the
inner phase's result (error or success) is reported only when the teardown
close succeeds. -/
theorem teardown_error_precedence (env : SessionEnv) :
    (∀ t, closeSerialPort true env.closeErr = Except.error t →
      (runSystemMemoryFn env).2 = some t)
    ∧ (closeSerialPort true env.closeErr = Except.ok () →
      (runSystemMemoryFn env).2 = (runSteps (tryBlockSteps env)).2) := by
  constructor
  · intro t ht
    simp [runSystemMemoryFn, finallyBlock, ht]
  · intro ht
    simp [runSystemMemoryFn, finallyBlock, ht]

/-- Witness for `teardown_error_precedence` at `envInnerAndCloseFail`. -/
theorem teardown_error_precedence_witness :
    (runSystemMemoryFn envInnerAndCloseFail).2 = some "close failed".toList :=
  (teardown_error_precedence envInnerAndCloseFail).1 "close failed".toList rfl

/-- Constructor options struct (`Stm32UartBootloaderOptions`); the baud rate
field is optional. -/
structure Stm32UartBootloaderOptions where
  resetPin : Nat
  boot0Pin : Nat
  serialPortPath : List Char
  serialPortBaudRate : Option Nat

/-- Baud rate stored by the constructor:
`this.serialPortBaudRate = options.serialPortBaudRate || 115200`, so a
missing (undefined) or zero (falsy) field falls back to 115200. -/
def constructorBaudRate (options : Stm32UartBootloaderOptions) : Nat :=
  match options.serialPortBaudRate with
  | none => 115200
  | some b => if b = 0 then 115200 else b

/-- Serial-port options passed to the UART by `_openSerialPort`. -/
structure SerialPortOpenOptions where
  baudRate : Nat
  dataBits : Nat
  parity : List Char
  stopBits : Nat

/-- Options object built in `_openSerialPort`: the stored baud rate plus the
fixed 8-even-1 framing. -/
def openSerialPortOptions (serialPortBaudRate : Nat) : SerialPortOpenOptions :=
  { baudRate := serialPortBaudRate, dataBits := 8, parity := "even".toList,
    stopBits := 1 }

/-- C9: with an absent (or falsy) baud-rate option the UART opens at 115200
baud; a positive supplied rate is used as given. -/
theorem default_baud_rate_spec (options : Stm32UartBootloaderOptions) :
    ((options.serialPortBaudRate = none ∨ options.serialPortBaudRate = some 0) →
      (openSerialPortOptions (constructorBaudRate options)).baudRate = 115200)
    ∧ (∀ b, 0 < b → options.serialPortBaudRate = some b →
      (openSerialPortOptions (constructorBaudRate options)).baudRate = b) := by
  constructor
  · rintro (h | h) <;> simp [openSerialPortOptions, constructorBaudRate, h]
  · intro b hb h
    simp only [openSerialPortOptions, constructorBaudRate, h]
    rw [if_neg (by omega)]

/-- Witness for `default_baud_rate_spec`: an options struct without a baud
rate opens at 115200, and one with 57600 opens at 57600. -/
theorem default_baud_rate_spec_witness :
    (openSerialPortOptions (constructorBaudRate
      ⟨11, 13, "/dev/serial0".toList, none⟩)).baudRate = 115200
    ∧ (openSerialPortOptions (constructorBaudRate
      ⟨11, 13, "/dev/serial0".toList, some 57600⟩)).baudRate = 57600 :=
  ⟨(default_baud_rate_spec ⟨11, 13, "/dev/serial0".toList, none⟩).1 (Or.inl rfl),
    (default_baud_rate_spec ⟨11, 13, "/dev/serial0".toList, some 57600⟩).2 57600
      (by decide) rfl⟩

/-- Completion events that can reach the `done` continuation of one
`_withTimeoutAndData` invocation: the parser succeeding or failing, the
`begin` write callback failing, or the deadline timer firing. -/
inductive ExchEvent (E V : Type)
  | parserOk (v : V)
  | parserErr (e : E)
  | beginErr (e : E)
  | deadline

/-- State of one `_withTimeoutAndData` invocation after setup: the
`callbackCalled` latch, the promise outcome (when resolved or rejected),
whether the `data` listener is attached, and whether the timer is pending. -/
structure ExchState (E V : Type) where
  callbackCalled : Bool
  settled : Option (Except E V)
  dataListener : Bool
  timerActive : Bool

variable {E V : Type}

/-- The shared `done(err, arg)` continuation: it always clears the timer and
removes the `data` listeners, and resolves or rejects the promise only when
`callbackCalled` is still false (then sets the latch). -/
def doneFn (s : ExchState E V) (r : Except E V) : ExchState E V :=
  { callbackCalled := true,
    settled := if s.callbackCalled then s.settled else some r,
    dataListener := false,
    timerActive := false }

/-- Event dispatch: the parser and the `begin` callback call `done` directly;
the timeout handler first removes the `data` listeners, then calls `done`
with the timeout error. -/
def exchStep (tErr : E) (s : ExchState E V) : ExchEvent E V → ExchState E V
  | ExchEvent.parserOk v => doneFn s (Except.ok v)
  | ExchEvent.parserErr e => doneFn s (Except.error e)
  | ExchEvent.beginErr e => doneFn s (Except.error e)
  | ExchEvent.deadline => doneFn { s with dataListener := false } (Except.error tErr)

/-- Synchronous setup actions of `_withTimeoutAndData`. -/
inductive SetupAction
  | setTimer
  | attachDataListener
  | invokeBegin
deriving DecidableEq, BEq

/-- Setup of `_withTimeoutAndData` in source order: install the timer, attach
the `data` listener, then invoke `begin`. -/
def exchSetupTrace : List SetupAction :=
  [SetupAction.setTimer, SetupAction.attachDataListener, SetupAction.invokeBegin]

/-- State right after setup: not settled, listener attached, timer pending. -/
def initExchState : ExchState E V :=
  { callbackCalled := false, settled := none, dataListener := true, timerActive := true }

/-- One invocation processing its completion events in arrival order. -/
def runExch (tErr : E) (events : List (ExchEvent E V)) : ExchState E V :=
  events.foldl (exchStep tErr) initExchState

/-- Outcome a single completion event would deliver. -/
def eventOutcome (tErr : E) : ExchEvent E V → Except E V
  | ExchEvent.parserOk v => Except.ok v
  | ExchEvent.parserErr e => Except.error e
  | ExchEvent.beginErr e => Except.error e
  | ExchEvent.deadline => Except.error tErr

lemma exchStep_callbackCalled (tErr : E) (s : ExchState E V) (ev : ExchEvent E V) :
    (exchStep tErr s ev).callbackCalled = true := by
  cases ev <;> rfl

lemma exchStep_settled_of_called (tErr : E) (s : ExchState E V) (ev : ExchEvent E V)
    (h : s.callbackCalled = true) : (exchStep tErr s ev).settled = s.settled := by
  cases ev <;> simp [exchStep, doneFn, h]

lemma foldl_exchStep_of_called (tErr : E) :
    ∀ (evs : List (ExchEvent E V)) (s : ExchState E V), s.callbackCalled = true →
      (evs.foldl (exchStep tErr) s).settled = s.settled := by
  intro evs
  induction evs with
  | nil => intro s _; rfl
  | cons e t ih =>
    intro s h
    simp only [List.foldl_cons]
    rw [ih _ (exchStep_callbackCalled tErr s e)]
    exact exchStep_settled_of_called tErr s e h

/-- C5: for every interleaving of parser-success, parser-error, begin-error
and deadline events, the exchange settles with the outcome of the first
event and ignores all later ones (`done` fires at most once), and `begin` is
invoked only after the data listener is attached. -/
theorem exchange_at_most_once (E V : Type) (tErr : E)
    (events : List (ExchEvent E V)) :
    (runExch tErr events).settled = events.head?.map (eventOutcome tErr)
    ∧ exchSetupTrace.indexOf SetupAction.attachDataListener <
        exchSetupTrace.indexOf SetupAction.invokeBegin := by
  constructor
  · cases events with
    | nil => rfl
    | cons e t =>
      simp only [runExch, List.foldl_cons, List.head?_cons, Option.map_some]
      rw [foldl_exchStep_of_called tErr t _ (exchStep_callbackCalled tErr initExchState e)]
      cases e <;> rfl
  · decide

/-- Errors raised by the command layer; constructor arguments carry the
dynamic parts of the thrown `Error` messages. -/
inductive CmdErr
  | notAvailable (msg : String)
  | startAck (found : Nat)
  | addressAck (found : Nat)
  | dataAck (found : Nat)
  | endAck (found : Nat)
  | timeout
deriving DecidableEq

/-- Scan of JavaScript `Array.prototype.indexOf` over the advertised command
list. -/
def arrayIndexOfAux (x : Nat) : List Nat → Nat → Int
  | [], _ => -1
  | a :: rest, i => if a = x then Int.ofNat i else arrayIndexOfAux x rest (i + 1)

/-- Model of `_cmdIsAvailable`: `this.availableCommands.indexOf(cmd) >= 0`. -/
def cmdIsAvailable (availableCommands : List Nat) (cmd : Nat) : Bool :=
  decide (0 ≤ arrayIndexOfAux cmd availableCommands 0)

/-- Accumulation state of `_cmdWithAckBeginAndEnd`: the `BufferBuilder`
contents and the expected total length (`len`, which starts at -1 and is set
once, modelled as `Option Nat`). -/
structure AckState where
  buffer : List Nat
  len : Option Nat

/-- Outcome of the ACK-framed exchange. -/
inductive AckOut
  | ok (buf : List Nat)
  | err (e : CmdErr)
deriving DecidableEq

/-- One `data` callback of `_cmdWithAckBeginAndEnd`: require ACK as the first
byte while nothing has accumulated, append the chunk, set
`len = buffer[1] + 4` once more than two bytes are available, and complete
exactly when the accumulated length equals `len` (checking the trailing
ACK; as in the source, that error reports `data[0]`). -/
def ackStep (st : AckState) (data : List Nat) : AckState × Option AckOut :=
  if st.buffer.length = 0 ∧ data.headD 0 ≠ ACK then
    (st, some (AckOut.err (CmdErr.startAck (data.headD 0))))
  else
    let buffer := st.buffer ++ data
    let len := if 2 < buffer.length ∧ st.len = none
      then some (buffer.getD 1 0 + 4) else st.len
    if some buffer.length = len then
      if buffer.getD (buffer.length - 1) 0 ≠ ACK then
        (⟨buffer, len⟩, some (AckOut.err (CmdErr.endAck (data.headD 0))))
      else (⟨buffer, len⟩, some (AckOut.ok buffer))
    else (⟨buffer, len⟩, none)

/-- Chunks drive the parser until its `done` continuation fires. -/
def runAck : AckState → List (List Nat) → Option AckOut
  | _, [] => none
  | st, data :: rest =>
    let r := ackStep st data
    if r.2.isSome then r.2 else runAck r.1 rest

/-- Model of the `_cmdWithAckBeginAndEnd` exchange (deadline 1000 ms): the
inbound chunks drive the parser; if it never completes, the deadline expires
and the result is the Timeout error. -/
def cmdWithAckBeginAndEnd (chunks : List (List Nat)) : AckOut :=
  (runAck ⟨[], none⟩ chunks).getD (AckOut.err CmdErr.timeout)

/-- Reply-driven part of `_cmdEraseAll` (deadline 30 000 ms): every chunk
must start with ACK; completion once the cumulative byte count reaches 2;
otherwise the mass-erase selector `[0xFF, 0x00]` is written. -/
def eraseExchange : Nat → List (List Nat) → List Nat × Option CmdErr
  | _, [] => ([], some CmdErr.timeout)
  | len, data :: rest =>
    if data.headD 0 ≠ ACK then ([], some (CmdErr.startAck (data.headD 0)))
    else
      let len := len + data.length
      if len = 2 then ([], none)
      else
        let r := eraseExchange len rest
        ([0xff, 0x00] ++ r.1, r.2)

/-- Model of `_cmdEraseAll`: the availability gate in front of the command
frame and the reply-driven selector writes. Returns the bytes written to the
UART and the error outcome. -/
def cmdEraseAll (availableCommands : List Nat) (replies : List (List Nat)) :
    List Nat × Option CmdErr :=
  if cmdIsAvailable availableCommands CMD_ERASE = false then
    ([], some (CmdErr.notAvailable "Erase command not available"))
  else
    let r := eraseExchange 0 replies
    (cmdFrame CMD_ERASE ++ r.1, r.2)

/-- Reachable phases of the `_cmdWrite` micro state machine (`COMPLETE` and
`ERROR` coincide with the `done` continuation having fired). -/
inductive WriteState
  | sendAddress
  | sendData
  | waitForDataAck

/-- Reply-driven part of `_cmdWrite` (deadline 30 000 ms): ACK then the
address frame, ACK then the data frame, final ACK completes. -/
def writeExchange (address : Nat) (data : List Nat) :
    WriteState → List (List Nat) → List Nat × Option CmdErr
  | _, [] => ([], some CmdErr.timeout)
  | WriteState.sendAddress, rx :: rest =>
    if rx.headD 0 ≠ ACK then ([], some (CmdErr.startAck (rx.headD 0)))
    else
      let r := writeExchange address data WriteState.sendData rest
      (addressFrame address ++ r.1, r.2)
  | WriteState.sendData, rx :: rest =>
    if rx.headD 0 ≠ ACK then ([], some (CmdErr.addressAck (rx.headD 0)))
    else
      let r := writeExchange address data WriteState.waitForDataAck rest
      (dataFrame data ++ r.1, r.2)
  | WriteState.waitForDataAck, rx :: _ =>
    if rx.headD 0 ≠ ACK then ([], some (CmdErr.dataAck (rx.headD 0)))
    else ([], none)

/-- Model of `_cmdWrite`: availability gate, then the command frame and the
three-phase exchange. -/
def cmdWrite (availableCommands : List Nat) (address : Nat) (data : List Nat)
    (replies : List (List Nat)) : List Nat × Option CmdErr :=
  if cmdIsAvailable availableCommands CMD_WRITE_MEMORY = false then
    ([], some (CmdErr.notAvailable "write memory command not available"))
  else
    let r := writeExchange address data WriteState.sendAddress replies
    (cmdFrame CMD_WRITE_MEMORY ++ r.1, r.2)

/-- Model of `_getIdCmd`: availability gate, then the ACK-framed exchange
for opcode 0x02. Returns the bytes written and the error outcome. -/
def getIdCmd (availableCommands : List Nat) (chunks : List (List Nat)) :
    List Nat × Option CmdErr :=
  if cmdIsAvailable availableCommands CMD_ID = false then
    ([], some (CmdErr.notAvailable "ID command not available"))
  else
    match cmdWithAckBeginAndEnd chunks with
    | AckOut.err e => (cmdFrame CMD_ID, some e)
    | AckOut.ok _ => (cmdFrame CMD_ID, none)

lemma arrayIndexOfAux_of_not_mem (x : Nat) :
    ∀ (l : List Nat) (i : Nat), x ∉ l → arrayIndexOfAux x l i = -1 := by
  intro l
  induction l with
  | nil => intro i _; rfl
  | cons a rest ih =>
    intro i h
    have hax : ¬(a = x) := fun e => h (by simp [e])
    simp only [arrayIndexOfAux, if_neg hax]
    exact ih (i + 1) (fun hm => h (by simp [hm]))

lemma cmdIsAvailable_false_of_not_mem (l : List Nat) (x : Nat) (h : x ∉ l) :
    cmdIsAvailable l x = false := by
  simp [cmdIsAvailable, arrayIndexOfAux_of_not_mem x l 0 h]

/-- C4: when `available_commands` omits 0x43, Erase fails with the
unsupported-command error before any Erase bytes are written; likewise the
other gated commands (Write Memory 0x31, Get ID 0x02) are never issued when
their opcode is absent. -/
theorem unsupported_command_gating (availableCommands : List Nat)
    (hErase : CMD_ERASE ∉ availableCommands) :
    (∀ replies, cmdEraseAll availableCommands replies =
      ([], some (CmdErr.notAvailable "Erase command not available")))
    ∧ (CMD_WRITE_MEMORY ∉ availableCommands → ∀ address data replies,
      cmdWrite availableCommands address data replies =
        ([], some (CmdErr.notAvailable "write memory command not available")))
    ∧ (CMD_ID ∉ availableCommands → ∀ chunks,
      getIdCmd availableCommands chunks =
        ([], some (CmdErr.notAvailable "ID command not available"))) := by
  refine ⟨?_, ?_, ?_⟩
  · intro replies
    simp [cmdEraseAll, cmdIsAvailable_false_of_not_mem _ _ hErase]
  · intro hWrite address data replies
    simp [cmdWrite, cmdIsAvailable_false_of_not_mem _ _ hWrite]
  · intro hId chunks
    simp [getIdCmd, cmdIsAvailable_false_of_not_mem _ _ hId]

/-- Witness for `unsupported_command_gating`: a Get response advertising only
`[0x00, 0x02, 0x31]` (no 0x43) makes Erase fail without emitting a byte. -/
theorem unsupported_command_gating_witness :
    cmdEraseAll [CMD_GET, CMD_ID, CMD_WRITE_MEMORY] [[0x79], [0x79]] =
      ([], some (CmdErr.notAvailable "Erase command not available")) :=
  (unsupported_command_gating [CMD_GET, CMD_ID, CMD_WRITE_MEMORY]
    (by decide)).1 [[0x79], [0x79]]

/-- Invariant of the accumulation state: once `len` is set it equals
`buffer[1] + 4` with more than two bytes already accumulated. -/
def AckInv (st : AckState) : Prop :=
  ∀ n, st.len = some n → 2 < st.buffer.length ∧ n = st.buffer.getD 1 0 + 4

lemma ackStep_inv (st : AckState) (data : List Nat) (h : AckInv st) :
    AckInv (ackStep st data).1
    ∧ (∀ buf, (ackStep st data).2 = some (AckOut.ok buf) →
        buf.length = buf.getD 1 0 + 4) := by
  have hkeep : AckInv ⟨st.buffer ++ data, st.len⟩ := by
    intro n hn
    obtain ⟨hlt, hv⟩ := h n hn
    refine ⟨by simp only [List.length_append]; omega, ?_⟩
    rw [List.getD_append st.buffer data 0 1 (by omega)]
    exact hv
  simp only [ackStep]
  split_ifs with c0 c1 c2 c3 c2 c3
  · exact ⟨h, fun buf hbuf => by simp at hbuf⟩
  · exact ⟨fun n hn => ⟨c1.1, by injection hn with hn; exact hn.symm⟩,
      fun buf hbuf => by simp at hbuf⟩
  · refine ⟨fun n hn => ⟨c1.1, by injection hn with hn; exact hn.symm⟩,
      fun buf hbuf => ?_⟩
    simp only [Option.some_inj, AckOut.ok.injEq] at hbuf
    injection c2 with c2
    subst hbuf
    exact c2
  · exact ⟨fun n hn => ⟨c1.1, by injection hn with hn; exact hn.symm⟩,
      fun buf hbuf => by simp at hbuf⟩
  · exact ⟨hkeep, fun buf hbuf => by simp at hbuf⟩
  · refine ⟨hkeep, fun buf hbuf => ?_⟩
    simp only [Option.some_inj, AckOut.ok.injEq] at hbuf
    obtain ⟨hlt, hv⟩ := hkeep _ c2.symm
    subst hbuf
    exact hv
  · exact ⟨hkeep, fun buf hbuf => by simp at hbuf⟩

lemma runAck_ok_length :
    ∀ (chunks : List (List Nat)) (st : AckState), AckInv st →
      ∀ buf, runAck st chunks = some (AckOut.ok buf) →
        buf.length = buf.getD 1 0 + 4 := by
  intro chunks
  induction chunks with
  | nil => intro st _ buf hbuf; simp [runAck] at hbuf
  | cons data rest ih =>
    intro st hst buf hbuf
    obtain ⟨hinv2, hok⟩ := ackStep_inv st data hst
    rw [runAck] at hbuf
    by_cases hs : (ackStep st data).2.isSome
    · rw [if_pos hs] at hbuf
      exact hok buf hbuf
    · rw [if_neg hs] at hbuf
      exact ih _ hinv2 buf hbuf

lemma ackStep_none (st : AckState) (data : List Nat)
    (h0 : ¬(st.buffer.length = 0 ∧ data.headD 0 ≠ ACK))
    (h2 : some (st.buffer ++ data).length ≠
      (if 2 < (st.buffer ++ data).length ∧ st.len = none
        then some ((st.buffer ++ data).getD 1 0 + 4) else st.len)) :
    ackStep st data = (⟨st.buffer ++ data,
      if 2 < (st.buffer ++ data).length ∧ st.len = none
        then some ((st.buffer ++ data).getD 1 0 + 4) else st.len⟩, none) := by
  simp only [ackStep]
  rw [if_neg h0, if_neg h2]

lemma ackStep_not_startAck (st : AckState) (data : List Nat)
    (h0 : ¬(st.buffer.length = 0 ∧ data.headD 0 ≠ ACK)) :
    ∀ b, (ackStep st data).2 ≠ some (AckOut.err (CmdErr.startAck b)) := by
  simp only [ackStep]
  rw [if_neg h0]
  split_ifs <;> simp

lemma ackStep_buffer (st : AckState) (data : List Nat)
    (h0 : ¬(st.buffer.length = 0 ∧ data.headD 0 ≠ ACK)) :
    (ackStep st data).1.buffer = st.buffer ++ data := by
  simp only [ackStep]
  rw [if_neg h0]
  split_ifs <;> rfl

lemma runAck_none_of_never_eq (T : Nat) :
    ∀ (chunks : List (List Nat)) (st : AckState),
      (∀ c ∈ chunks, c ≠ []) →
      (st.buffer = [] → (chunks.headD []).headD 0 = ACK) →
      (st.len = none → st.buffer.length ≤ 2) →
      (∀ n, st.len = some n → 2 < st.buffer.length ∧ n = T) →
      (2 ≤ (st.buffer ++ chunks.flatten).length →
        (st.buffer ++ chunks.flatten).getD 1 0 + 4 = T) →
      (∀ k, k ≤ chunks.length →
        (st.buffer ++ (chunks.take k).flatten).length ≠ T) →
      runAck st chunks = none := by
  intro chunks
  induction chunks with
  | nil => intro st _ _ _ _ _ _; rfl
  | cons data rest ih =>
    intro st hne hgood hnone hsome htarget hneq
    have hdata : data ≠ [] := hne data (by simp)
    have h0 : ¬(st.buffer.length = 0 ∧ data.headD 0 ≠ ACK) := by
      rintro ⟨hz, hb⟩
      exact hb (hgood (List.length_eq_zero.mp hz))
    have hflat : st.buffer ++ (data :: rest).flatten =
        (st.buffer ++ data) ++ rest.flatten := by
      rw [List.flatten_cons, List.append_assoc]
    have hone : (st.buffer ++ ((data :: rest).take 1).flatten).length =
        (st.buffer ++ data).length := by
      simp
    have hlen1 : (st.buffer ++ data).length ≠ T := by
      have := hneq 1 (by simp)
      rw [hone] at this
      exact this
    have h2 : some (st.buffer ++ data).length ≠
        (if 2 < (st.buffer ++ data).length ∧ st.len = none
          then some ((st.buffer ++ data).getD 1 0 + 4) else st.len) := by
      by_cases hc : 2 < (st.buffer ++ data).length ∧ st.len = none
      · rw [if_pos hc]
        have hgd : (st.buffer ++ data).getD 1 0 =
            (st.buffer ++ (data :: rest).flatten).getD 1 0 := by
          rw [hflat, List.getD_append (st.buffer ++ data) rest.flatten 0 1 (by omega)]
        have hT : (st.buffer ++ data).getD 1 0 + 4 = T := by
          rw [hgd]
          exact htarget (by rw [hflat]; have h3 := hc.1; simp only [List.length_append] at h3 ⊢; omega)
        intro hcon
        injection hcon with hcon
        omega
      · rw [if_neg hc]
        cases hst : st.len with
        | none => simp
        | some n =>
          obtain ⟨_, hnT⟩ := hsome n hst
          intro hcon
          injection hcon with hcon
          omega
    have hstep := ackStep_none st data h0 h2
    rw [runAck, hstep]
    simp only [Option.isSome_none, Bool.false_eq_true, if_false]
    apply ih
    · intro c hc
      exact hne c (by simp [hc])
    · intro hb
      exact absurd hb (by simp [hdata])
    · intro hln
      by_cases hc : 2 < (st.buffer ++ data).length ∧ st.len = none
      · rw [if_pos hc] at hln
        exact absurd hln (by simp)
      · rw [if_neg hc] at hln
        have := hnone hln
        rcases (not_and_or.mp hc) with hc1 | hc2
        · simp only [List.length_append] at hc1 ⊢
          omega
        · exact absurd hln hc2
    · intro n hln
      by_cases hc : 2 < (st.buffer ++ data).length ∧ st.len = none
      · rw [if_pos hc] at hln
        injection hln with hln
        have hgd : (st.buffer ++ data).getD 1 0 =
            (st.buffer ++ (data :: rest).flatten).getD 1 0 := by
          rw [hflat, List.getD_append (st.buffer ++ data) rest.flatten 0 1 (by omega)]
        have hT : (st.buffer ++ data).getD 1 0 + 4 = T := by
          rw [hgd]
          exact htarget (by rw [hflat]; have h3 := hc.1; simp only [List.length_append] at h3 ⊢; omega)
        exact ⟨hc.1, by omega⟩
      · rw [if_neg hc] at hln
        obtain ⟨hlt, hnT⟩ := hsome n hln
        exact ⟨by simp only [List.length_append]; omega, hnT⟩
    · intro hlen2
      rw [← hflat]
      refine htarget ?_
      rw [hflat]
      exact hlen2
    · intro k hk
      have := hneq (k + 1) (by simpa using Nat.succ_le_succ hk)
      rw [List.take_succ_cons, List.flatten_cons, ← List.append_assoc] at this
      exact this

lemma runAck_no_startAck :
    ∀ (chunks : List (List Nat)) (st : AckState),
      (∀ c ∈ chunks, c ≠ []) →
      (st.buffer = [] → (chunks.headD []).headD 0 = ACK) →
      ∀ b, runAck st chunks ≠ some (AckOut.err (CmdErr.startAck b)) := by
  intro chunks
  induction chunks with
  | nil => intro st _ _ b h; simp [runAck] at h
  | cons data rest ih =>
    intro st hne hgood b hcontra
    have hdata : data ≠ [] := hne data (by simp)
    have h0 : ¬(st.buffer.length = 0 ∧ data.headD 0 ≠ ACK) := by
      rintro ⟨hz, hb⟩
      exact hb (hgood (List.length_eq_zero.mp hz))
    rw [runAck] at hcontra
    by_cases hs : (ackStep st data).2.isSome
    · rw [if_pos hs] at hcontra
      exact ackStep_not_startAck st data h0 b hcontra
    · rw [if_neg hs] at hcontra
      refine ih (ackStep st data).1 (fun c hc => hne c (by simp [hc])) ?_ b hcontra
      intro hb
      rw [ackStep_buffer st data h0] at hb
      exact absurd hb (by simp [hdata])

/-- C10: the ACK-framed parser used by Get and Get ID signals success only on
a chunk whose arrival makes the cumulative byte count exactly
`buffer[1] + 4`; when the count skips strictly past that value without ever
equalling it, the parser never completes and the exchange ends in a Timeout
error at the 1000 ms deadline; and the start-ACK check applies only to the
first byte of the first chunk. -/
theorem ack_parser_completion (chunks : List (List Nat))
    (hne : ∀ c ∈ chunks, c ≠ [])
    (hack : (chunks.headD []).headD 0 = ACK) :
    (∀ buf, cmdWithAckBeginAndEnd chunks = AckOut.ok buf →
      buf.length = buf.getD 1 0 + 4)
    ∧ ((∀ k, k ≤ chunks.length →
        (chunks.take k).flatten.length ≠ chunks.flatten.getD 1 0 + 4) →
      (∃ k, k ≤ chunks.length ∧
        chunks.flatten.getD 1 0 + 4 < (chunks.take k).flatten.length) →
      cmdWithAckBeginAndEnd chunks = AckOut.err CmdErr.timeout)
    ∧ (∀ b, cmdWithAckBeginAndEnd chunks ≠ AckOut.err (CmdErr.startAck b)) := by
  refine ⟨?_, ?_, ?_⟩
  · intro buf hbuf
    unfold cmdWithAckBeginAndEnd at hbuf
    cases hr : runAck ⟨[], none⟩ chunks with
    | none => rw [hr] at hbuf; simp at hbuf
    | some out =>
      rw [hr] at hbuf
      simp only [Option.getD_some] at hbuf
      refine runAck_ok_length chunks ⟨[], none⟩ (fun n hn => Option.noConfusion hn)
        buf ?_
      rw [hr, hbuf]
  · intro hneq _
    unfold cmdWithAckBeginAndEnd
    rw [runAck_none_of_never_eq (chunks.flatten.getD 1 0 + 4) chunks ⟨[], none⟩ hne
      (fun _ => hack) (fun _ => by simp) (fun n hn => Option.noConfusion hn)
      (fun _ => by simp) (fun k hk => by simpa using hneq k hk)]
    rfl
  · intro b
    unfold cmdWithAckBeginAndEnd
    cases hr : runAck ⟨[], none⟩ chunks with
    | none => simp
    | some out =>
      simp only [Option.getD_some]
      intro hcontra
      refine runAck_no_startAck chunks ⟨[], none⟩ hne (fun _ => hack) b ?_
      rw [hr, hcontra]

/-- Witness for `ack_parser_completion`: cumulative counts 1, 3, 6, 8, 10
skip past the expected total 9 (= stream[1] + 4 = 5 + 4), so the exchange
times out. -/
theorem ack_parser_completion_witness :
    cmdWithAckBeginAndEnd
      [[0x79], [0x05, 0x01], [0x02, 0x03, 0x04], [0x05, 0x06], [0x07, 0x08]]
      = AckOut.err CmdErr.timeout :=
  (ack_parser_completion
    [[0x79], [0x05, 0x01], [0x02, 0x03, 0x04], [0x05, 0x06], [0x07, 0x08]]
    (by decide) (by decide)).2.1 (by decide) ⟨5, by decide⟩

end Stm32
